import Mathlib

set_option maxHeartbeats 1600000
set_option maxRecDepth 8000
set_option linter.unusedVariables false

/-! Shallow embedding of the Commodore 64 emulator core: the banked
memory subsystem (src/memory/memory.c) and the MOS 6510 instruction
interpreter (src/cpu/cpu.c).  Machine integers are modelled as Nat with
explicit reductions modulo 2^8 and 2^16 at the points where the C code
converts a value to uint8_t or uint16_t.  Byte arrays are modelled as
functions Nat → Nat whose cells are kept below 256 by truncating at
every store and at every uint8_t load. -/

/-- Pointwise update of a byte array modelled as a function
(memory[i] = v). -/
def upd (f : Nat → Nat) (i v : Nat) : Nat → Nat :=
  fun j => if j = i then v else f j

/-- Source region an entry of the page dispatch cache points into.
memory.c keeps memory_read_map as an array of 256 pointers, each aimed
at the base of the page inside RAM, BASIC ROM, KERNAL ROM or CHAR ROM;
the pointed-to array is determined by which loop of update_memory_maps
set the entry, so a constructor tag is an exact model. -/
inductive PageSrc where
  | ramPage
  | basicPage
  | kernalPage
  | charPage
deriving DecidableEq

/-- State of memory.c: the 64 KiB RAM, the three ROM images, the four
banking flags and the page dispatch cache memory_read_map. -/
structure Mem where
  ram : Nat → Nat
  basic_rom : Nat → Nat
  kernal_rom : Nat → Nat
  char_rom : Nat → Nat
  basic_rom_enabled : Bool
  kernal_rom_enabled : Bool
  char_rom_enabled : Bool
  io_enabled : Bool
  memory_read_map : Nat → PageSrc

/-- memory_write's KERNAL decode: (value & 0x02) != 0. -/
def port_kernal (v : Nat) : Bool := decide (v / 2 % 2 = 1)

/-- memory_write's BASIC decode: (value & 0x03) != 0. -/
def port_basic (v : Nat) : Bool := decide (v % 4 ≠ 0)

/-- memory_write's I/O decode: (value & 0x04) != 0. -/
def port_io_bit (v : Nat) : Bool := decide (v / 4 % 2 = 1)

/-- memory_write's char-ROM decode:
(value & 0x04) == 0 && (value & 0x03) != 0. -/
def port_char (v : Nat) : Bool := decide (v / 4 % 2 = 0 ∧ v % 4 ≠ 0)

/-- The page dispatch table update_memory_maps builds from the current
banking flags: default RAM, BASIC ROM for pages $A0-$BF when enabled,
KERNAL ROM for $E0-$FF when enabled, CHAR ROM for $D0-$DF when I/O is
disabled and char is enabled (the io_enabled branch of the C function
installs nothing). -/
def banked_map (m : Mem) : Nat → PageSrc :=
  fun page =>
    if m.basic_rom_enabled = true ∧ 0xA0 ≤ page ∧ page ≤ 0xBF then
      PageSrc.basicPage
    else if m.kernal_rom_enabled = true ∧ 0xE0 ≤ page ∧ page ≤ 0xFF then
      PageSrc.kernalPage
    else if m.io_enabled = false ∧ m.char_rom_enabled = true ∧
        0xD0 ≤ page ∧ page ≤ 0xDF then
      PageSrc.charPage
    else
      PageSrc.ramPage

/-- update_memory_maps: rebuild the page dispatch cache from the
current banking flags. -/
def update_memory_maps (m : Mem) : Mem :=
  { m with memory_read_map := banked_map m }

/-- memory_init: zero RAM, fill BASIC/KERNAL ROM with 0xEA NOPs, zero
the char ROM, enable all four banks, set $0000 = 0x2F and $0001 = 0x37,
then build the dispatch table.  The C function also stores the
NMI/RESET/IRQ vector bytes through kernal_rom[0x1FFA - 0xE000] ..
kernal_rom[0x1FFF - 0xE000]; those subscripts are the negative ints
-49158 .. -49153, i.e. out-of-bounds accesses that never touch the
8 KiB kernal_rom array, so the ROM image keeps its 0xEA fill. -/
def memory_init : Mem :=
  update_memory_maps
    { ram := fun j => if j = 0 then 0x2F else if j = 1 then 0x37 else 0
      basic_rom := fun _ => 0xEA
      kernal_rom := fun _ => 0xEA
      char_rom := fun _ => 0
      basic_rom_enabled := true
      kernal_rom_enabled := true
      char_rom_enabled := true
      io_enabled := true
      memory_read_map := fun _ => PageSrc.ramPage }

/-- memory_read: split the uint16 address into page and offset; an
enabled-I/O access to pages $D0-$DF reads the RAM shadow; otherwise the
page dispatch entry selects the array, indexed at the page base the
entry was built with.  The final % 256 models the uint8_t load. -/
def memory_read (m : Mem) (addr : Nat) : Nat :=
  let address := addr % 65536
  let page := address / 256
  let offset := address % 256
  if 0xD0 ≤ page ∧ page ≤ 0xDF ∧ m.io_enabled = true then
    m.ram address % 256
  else
    match m.memory_read_map page with
    | PageSrc.ramPage => m.ram (page * 256 + offset) % 256
    | PageSrc.basicPage => m.basic_rom ((page - 0xA0) * 256 + offset) % 256
    | PageSrc.kernalPage => m.kernal_rom ((page - 0xE0) * 256 + offset) % 256
    | PageSrc.charPage => m.char_rom ((page - 0xD0) * 256 + offset) % 256

/-- memory_write: discard stores into an enabled BASIC or KERNAL ROM
window; stores into $D000-$DFFF hit the RAM shadow when I/O is enabled
and are discarded when char ROM is banked in instead (and fall through
to plain RAM when neither is); a store to $0001 records the byte,
recomputes the four banking flags from its low bits and rebuilds the
dispatch table when bits 0-2 changed; anything else is a RAM store. -/
def memory_write (m : Mem) (addr value0 : Nat) : Mem :=
  let address := addr % 65536
  let value := value0 % 256
  if m.basic_rom_enabled = true ∧ 0xA000 ≤ address ∧ address ≤ 0xBFFF then
    m
  else if m.kernal_rom_enabled = true ∧ 0xE000 ≤ address ∧ address ≤ 0xFFFF then
    m
  else if 0xD000 ≤ address ∧ address ≤ 0xDFFF ∧ m.io_enabled = true then
    { m with ram := upd m.ram address value }
  else if 0xD000 ≤ address ∧ address ≤ 0xDFFF ∧ m.io_enabled = false ∧
      m.char_rom_enabled = true then
    m
  else if address = 1 then
    let old_value := m.ram 1
    let m1 : Mem :=
      { m with
        ram := upd m.ram 1 value
        kernal_rom_enabled := port_kernal value
        basic_rom_enabled := port_basic value
        io_enabled := port_io_bit value
        char_rom_enabled := port_char value }
    if old_value % 8 ≠ value % 8 then update_memory_maps m1 else m1
  else
    { m with ram := upd m.ram address value }

/-- memory_load: truncate the length to the end of the 64 KiB window
and memcpy the bytes into the RAM array, bypassing memory_write's
banking and processor-port logic entirely. -/
def memory_load (m : Mem) (addr : Nat) (data : Nat → Nat) (len : Nat) : Mem :=
  let address := addr % 65536
  let length0 := len % 65536
  let length := if 65536 < address + length0 then 65536 - address else length0
  { m with
    ram := fun j =>
      if address ≤ j ∧ j < address + length then data (j - address) % 256
      else m.ram j }

/-- The 13 addressing modes of cpu.h. -/
inductive AddressingMode where
  | ADDR_IMPLIED
  | ADDR_ACCUMULATOR
  | ADDR_IMMEDIATE
  | ADDR_ZERO_PAGE
  | ADDR_ZERO_PAGE_X
  | ADDR_ZERO_PAGE_Y
  | ADDR_RELATIVE
  | ADDR_ABSOLUTE
  | ADDR_ABSOLUTE_X
  | ADDR_ABSOLUTE_Y
  | ADDR_INDIRECT
  | ADDR_INDEXED_INDIRECT
  | ADDR_INDIRECT_INDEXED
deriving DecidableEq

export AddressingMode (ADDR_IMPLIED ADDR_ACCUMULATOR ADDR_IMMEDIATE
  ADDR_ZERO_PAGE ADDR_ZERO_PAGE_X ADDR_ZERO_PAGE_Y ADDR_RELATIVE
  ADDR_ABSOLUTE ADDR_ABSOLUTE_X ADDR_ABSOLUTE_Y ADDR_INDIRECT
  ADDR_INDEXED_INDIRECT ADDR_INDIRECT_INDEXED)

/-- The CPU register file of cpu.h: 16-bit pc, 8-bit a/x/y/sp and the
seven one-bit flags. -/
structure CPU where
  pc : Nat
  a : Nat
  x : Nat
  y : Nat
  sp : Nat
  c : Bool
  z : Bool
  i : Bool
  d : Bool
  b : Bool
  v : Bool
  n : Bool

/-- The interpreter state: the register file, the cycle counter and the
memory subsystem.  cpu.c keeps cycles as a uint32_t, so every update of
the counter is reduced modulo 2^32 (the counter wraps around). -/
structure Machine where
  cpu : CPU
  cycles : Nat
  mem : Mem

/-- opcode_sizes: instruction byte lengths, default 1 (cpu_init). -/
def opcode_sizes (op : Nat) : Nat :=
  match op with
  | 0xA9 => 2 | 0xA5 => 2 | 0xB5 => 2 | 0xAD => 3 | 0xBD => 3
  | 0xB9 => 3 | 0xA1 => 2 | 0xB1 => 2
  | 0xA2 => 2 | 0xA6 => 2 | 0xB6 => 2 | 0xAE => 3 | 0xBE => 3
  | 0xA0 => 2 | 0xA4 => 2 | 0xB4 => 2 | 0xAC => 3 | 0xBC => 3
  | 0x85 => 2 | 0x95 => 2 | 0x8D => 3 | 0x9D => 3 | 0x99 => 3
  | 0x81 => 2 | 0x91 => 2
  | 0x86 => 2 | 0x96 => 2 | 0x8E => 3
  | 0x84 => 2 | 0x94 => 2 | 0x8C => 3
  | 0x4C => 3 | 0x6C => 3
  | 0x20 => 3 | 0x60 => 1
  | 0xE8 => 1 | 0xC8 => 1 | 0xCA => 1 | 0x88 => 1
  | 0xC9 => 2 | 0xC5 => 2 | 0xD5 => 2 | 0xCD => 3 | 0xDD => 3
  | 0xD9 => 3 | 0xC1 => 2 | 0xD1 => 2
  | 0xF0 => 2 | 0xD0 => 2 | 0xB0 => 2 | 0x90 => 2
  | 0x30 => 2 | 0x10 => 2 | 0x70 => 2 | 0x50 => 2
  | _ => 1

/-- opcode_cycles: base cycle costs, default 2 (cpu_init). -/
def opcode_cycles (op : Nat) : Nat :=
  match op with
  | 0xA9 => 2 | 0xA5 => 3 | 0xB5 => 4 | 0xAD => 4 | 0xBD => 4
  | 0xB9 => 4 | 0xA1 => 6 | 0xB1 => 5
  | 0xA2 => 2 | 0xA6 => 3 | 0xB6 => 4 | 0xAE => 4 | 0xBE => 4
  | 0xA0 => 2 | 0xA4 => 3 | 0xB4 => 4 | 0xAC => 4 | 0xBC => 4
  | 0x85 => 3 | 0x95 => 4 | 0x8D => 4 | 0x9D => 5 | 0x99 => 5
  | 0x81 => 6 | 0x91 => 6
  | 0x86 => 3 | 0x96 => 4 | 0x8E => 4
  | 0x84 => 3 | 0x94 => 4 | 0x8C => 4
  | 0x4C => 3 | 0x6C => 5
  | 0x20 => 6 | 0x60 => 6
  | 0xE8 => 2 | 0xC8 => 2 | 0xCA => 2 | 0x88 => 2
  | 0xC9 => 2 | 0xC5 => 3 | 0xD5 => 4 | 0xCD => 4 | 0xDD => 4
  | 0xD9 => 4 | 0xC1 => 6 | 0xD1 => 5
  | 0xF0 => 2 | 0xD0 => 2 | 0xB0 => 2 | 0x90 => 2
  | 0x30 => 2 | 0x10 => 2 | 0x70 => 2 | 0x50 => 2
  | _ => 2

/-- opcode_modes: addressing-mode tags, default ADDR_IMPLIED
(cpu_init).  The six transfer opcodes (TAX/TAY/TXA/TYA/TSX/TXS) are
executed by cpu_step but never entered in the tables, so they keep the
defaults. -/
def opcode_modes (op : Nat) : AddressingMode :=
  match op with
  | 0xA9 => ADDR_IMMEDIATE | 0xA5 => ADDR_ZERO_PAGE
  | 0xB5 => ADDR_ZERO_PAGE_X | 0xAD => ADDR_ABSOLUTE
  | 0xBD => ADDR_ABSOLUTE_X | 0xB9 => ADDR_ABSOLUTE_Y
  | 0xA1 => ADDR_INDEXED_INDIRECT | 0xB1 => ADDR_INDIRECT_INDEXED
  | 0xA2 => ADDR_IMMEDIATE | 0xA6 => ADDR_ZERO_PAGE
  | 0xB6 => ADDR_ZERO_PAGE_Y | 0xAE => ADDR_ABSOLUTE
  | 0xBE => ADDR_ABSOLUTE_Y
  | 0xA0 => ADDR_IMMEDIATE | 0xA4 => ADDR_ZERO_PAGE
  | 0xB4 => ADDR_ZERO_PAGE_X | 0xAC => ADDR_ABSOLUTE
  | 0xBC => ADDR_ABSOLUTE_X
  | 0x85 => ADDR_ZERO_PAGE | 0x95 => ADDR_ZERO_PAGE_X
  | 0x8D => ADDR_ABSOLUTE | 0x9D => ADDR_ABSOLUTE_X
  | 0x99 => ADDR_ABSOLUTE_Y | 0x81 => ADDR_INDEXED_INDIRECT
  | 0x91 => ADDR_INDIRECT_INDEXED
  | 0x86 => ADDR_ZERO_PAGE | 0x96 => ADDR_ZERO_PAGE_Y
  | 0x8E => ADDR_ABSOLUTE
  | 0x84 => ADDR_ZERO_PAGE | 0x94 => ADDR_ZERO_PAGE_X
  | 0x8C => ADDR_ABSOLUTE
  | 0x4C => ADDR_ABSOLUTE | 0x6C => ADDR_INDIRECT
  | 0x20 => ADDR_ABSOLUTE | 0x60 => ADDR_IMPLIED
  | 0xE8 => ADDR_IMPLIED | 0xC8 => ADDR_IMPLIED
  | 0xCA => ADDR_IMPLIED | 0x88 => ADDR_IMPLIED
  | 0xC9 => ADDR_IMMEDIATE | 0xC5 => ADDR_ZERO_PAGE
  | 0xD5 => ADDR_ZERO_PAGE_X | 0xCD => ADDR_ABSOLUTE
  | 0xDD => ADDR_ABSOLUTE_X | 0xD9 => ADDR_ABSOLUTE_Y
  | 0xC1 => ADDR_INDEXED_INDIRECT | 0xD1 => ADDR_INDIRECT_INDEXED
  | 0xF0 => ADDR_RELATIVE | 0xD0 => ADDR_RELATIVE
  | 0xB0 => ADDR_RELATIVE | 0x90 => ADDR_RELATIVE
  | 0x30 => ADDR_RELATIVE | 0x10 => ADDR_RELATIVE
  | 0x70 => ADDR_RELATIVE | 0x50 => ADDR_RELATIVE
  | _ => ADDR_IMPLIED

/-- cpu_get_operand_address: effective-address computation for each
addressing mode, relative to the current pc.  Bit operations of the C
source are rendered arithmetically: x & 0xFF is x % 256, (x >> 8) is
x / 256, lo | (hi << 8) is lo + 256 * hi (the low part is a uint8),
ptr & 0xFF00 is ptr / 256 * 256, and the int8_t cast of the relative
offset adds 65536 - 256 before the uint16 reduction when bit 7 is
set. -/
def cpu_get_operand_address (mode : AddressingMode) (c : CPU) (m : Mem) : Nat :=
  match mode with
  | ADDR_IMPLIED => 0
  | ADDR_ACCUMULATOR => 0
  | ADDR_IMMEDIATE => (c.pc + 1) % 65536
  | ADDR_ZERO_PAGE => memory_read m (c.pc + 1)
  | ADDR_ZERO_PAGE_X => (memory_read m (c.pc + 1) + c.x) % 256
  | ADDR_ZERO_PAGE_Y => (memory_read m (c.pc + 1) + c.y) % 256
  | ADDR_RELATIVE =>
      let offset := memory_read m (c.pc + 1)
      if offset < 128 then (c.pc + 2 + offset) % 65536
      else (c.pc + 2 + offset + 65280) % 65536
  | ADDR_ABSOLUTE =>
      memory_read m (c.pc + 1) + 256 * memory_read m (c.pc + 2)
  | ADDR_ABSOLUTE_X =>
      (memory_read m (c.pc + 1) + 256 * memory_read m (c.pc + 2) + c.x) % 65536
  | ADDR_ABSOLUTE_Y =>
      (memory_read m (c.pc + 1) + 256 * memory_read m (c.pc + 2) + c.y) % 65536
  | ADDR_INDIRECT =>
      let ptr := memory_read m (c.pc + 1) + 256 * memory_read m (c.pc + 2)
      if ptr % 256 = 0xFF then
        memory_read m ptr + 256 * memory_read m (ptr / 256 * 256)
      else
        memory_read m ptr + 256 * memory_read m (ptr + 1)
  | ADDR_INDEXED_INDIRECT =>
      let zp := (memory_read m (c.pc + 1) + c.x) % 256
      memory_read m zp + 256 * memory_read m ((zp + 1) % 256)
  | ADDR_INDIRECT_INDEXED =>
      let zp := memory_read m (c.pc + 1)
      (memory_read m zp + 256 * memory_read m ((zp + 1) % 256) + c.y) % 65536

/-- cpu_push_byte: store at 0x0100 | sp, then decrement sp with uint8
wrap-around. -/
def cpu_push_byte (c : CPU) (m : Mem) (value : Nat) : CPU × Mem :=
  ({ c with sp := (c.sp + 255) % 256 },
   memory_write m (0x0100 + c.sp) value)

/-- cpu_pull_byte: pre-increment sp with uint8 wrap-around, then load
from 0x0100 | sp. -/
def cpu_pull_byte (c : CPU) (m : Mem) : CPU × Nat :=
  let sp1 := (c.sp + 1) % 256
  ({ c with sp := sp1 }, memory_read m (0x0100 + sp1))

/-- cpu_push_word: high byte first, then low byte; the argument passes
through a uint16_t parameter. -/
def cpu_push_word (c : CPU) (m : Mem) (value0 : Nat) : CPU × Mem :=
  let value := value0 % 65536
  let r1 := cpu_push_byte c m (value / 256 % 256)
  cpu_push_byte r1.1 r1.2 (value % 256)

/-- cpu_pull_word: low byte first, then high byte, recomposed as
(high << 8) | low. -/
def cpu_pull_word (c : CPU) (m : Mem) : CPU × Nat :=
  let r1 := cpu_pull_byte c m
  let r2 := cpu_pull_byte r1.1 m
  (r2.1, 256 * r2.2 + r1.2)

/-- The effect of cpu_emulate_kernal's routine switch on the
accumulator: CHROUT ($FFD2) prints a and leaves the registers alone,
CHRIN ($FFCF) loads a from getchar(), GETIN ($FFE4) loads a from the
keyboard poll (0 when no key is pending), and the default arm only
prints a diagnostic.  The byte delivered by the host's stdin/keyboard
is the parameter inp. -/
def kernal_a (inp address a : Nat) : Nat :=
  match address with
  | 0xFFCF => inp % 256
  | 0xFFE4 => inp % 256
  | _ => a

/-- cpu_emulate_kernal: run the routine switch (which can only change
the accumulator), then perform the RTS-equivalent pull:
pc = pull16() + 1. -/
def cpu_emulate_kernal (inp address : Nat) (c : CPU) (m : Mem) : CPU × Mem :=
  let c1 := { c with a := kernal_a inp address c.a }
  let r := cpu_pull_word c1 m
  ({ r.1 with pc := (r.2 + 1) % 65536 }, m)

/-- The opcode switch of cpu_step, acting on the register file and the
memory and returning the possibly-zeroed size (size = 0 suppresses the
pc advance).  The C default arm re-tests opcode == 0x20, which is
unreachable because 0x20 has its own case label; the default therefore
only prints the unknown-opcode diagnostic and leaves the state
alone. -/
def cpu_exec (inp opcode address size : Nat) (c : CPU) (m : Mem) :
    CPU × Mem × Nat :=
  match opcode with
  | 0xA9 | 0xA5 | 0xB5 | 0xAD | 0xBD | 0xB9 | 0xA1 | 0xB1 =>
      let val := memory_read m address
      ({ c with a := val, z := val == 0, n := decide (128 ≤ val) }, m, size)
  | 0xA2 | 0xA6 | 0xB6 | 0xAE | 0xBE =>
      let val := memory_read m address
      ({ c with x := val, z := val == 0, n := decide (128 ≤ val) }, m, size)
  | 0xA0 | 0xA4 | 0xB4 | 0xAC | 0xBC =>
      let val := memory_read m address
      ({ c with y := val, z := val == 0, n := decide (128 ≤ val) }, m, size)
  | 0x85 | 0x95 | 0x8D | 0x9D | 0x99 | 0x81 | 0x91 =>
      (c, memory_write m address c.a, size)
  | 0x86 | 0x96 | 0x8E =>
      (c, memory_write m address c.x, size)
  | 0x84 | 0x94 | 0x8C =>
      (c, memory_write m address c.y, size)
  | 0x4C | 0x6C =>
      ({ c with pc := address }, m, 0)
  | 0x20 =>
      if 0xFF00 ≤ address then
        let r1 := cpu_push_word c m (c.pc + 2)
        let r2 := cpu_emulate_kernal inp address r1.1 r1.2
        (r2.1, r2.2, 0)
      else
        let r1 := cpu_push_word c m (c.pc + 2 - 1)
        ({ r1.1 with pc := address }, r1.2, 0)
  | 0x60 =>
      let r := cpu_pull_word c m
      ({ r.1 with pc := (r.2 + 1) % 65536 }, m, 0)
  | 0xE8 =>
      let val := (c.x + 1) % 256
      ({ c with x := val, z := val == 0, n := decide (128 ≤ val) }, m, size)
  | 0xC8 =>
      let val := (c.y + 1) % 256
      ({ c with y := val, z := val == 0, n := decide (128 ≤ val) }, m, size)
  | 0xCA =>
      let val := (c.x + 255) % 256
      ({ c with x := val, z := val == 0, n := decide (128 ≤ val) }, m, size)
  | 0x88 =>
      let val := (c.y + 255) % 256
      ({ c with y := val, z := val == 0, n := decide (128 ≤ val) }, m, size)
  | 0xC9 | 0xC5 | 0xD5 | 0xCD | 0xDD | 0xD9 | 0xC1 | 0xD1 =>
      let val := memory_read m address
      let result := (c.a + 256 - val) % 256
      ({ c with c := decide (val ≤ c.a), z := result == 0,
                n := decide (128 ≤ result) }, m, size)
  | 0xF0 => if c.z then ({ c with pc := address }, m, 0) else (c, m, size)
  | 0xD0 => if c.z then (c, m, size) else ({ c with pc := address }, m, 0)
  | 0xB0 => if c.c then ({ c with pc := address }, m, 0) else (c, m, size)
  | 0x90 => if c.c then (c, m, size) else ({ c with pc := address }, m, 0)
  | 0x30 => if c.n then ({ c with pc := address }, m, 0) else (c, m, size)
  | 0x10 => if c.n then (c, m, size) else ({ c with pc := address }, m, 0)
  | 0x70 => if c.v then ({ c with pc := address }, m, 0) else (c, m, size)
  | 0x50 => if c.v then (c, m, size) else ({ c with pc := address }, m, 0)
  | 0xAA =>
      let val := c.a
      ({ c with x := val, z := val == 0, n := decide (128 ≤ val) }, m, size)
  | 0xA8 =>
      let val := c.a
      ({ c with y := val, z := val == 0, n := decide (128 ≤ val) }, m, size)
  | 0x8A =>
      let val := c.x
      ({ c with a := val, z := val == 0, n := decide (128 ≤ val) }, m, size)
  | 0x98 =>
      let val := c.y
      ({ c with a := val, z := val == 0, n := decide (128 ≤ val) }, m, size)
  | 0xBA =>
      let val := c.sp
      ({ c with x := val, z := val == 0, n := decide (128 ≤ val) }, m, size)
  | 0x9A =>
      ({ c with sp := c.x }, m, size)
  | _ => (c, m, size)

/-- cpu_step: fetch the opcode at pc, decode mode and size, compute the
effective address, run the opcode switch, then advance pc by the
(possibly zeroed) size and add the base cycle cost to the uint32 cycle
counter (with wrap-around).  The switch never touches the cycle
counter, which the return type of cpu_exec makes structural. -/
def cpu_step (inp : Nat) (s : Machine) : Machine :=
  let opcode := memory_read s.mem s.cpu.pc
  let mode := opcode_modes opcode
  let size := opcode_sizes opcode
  let address := cpu_get_operand_address mode s.cpu s.mem
  let r := cpu_exec inp opcode address size s.cpu s.mem
  { cpu := if 0 < r.2.2 then { r.1 with pc := (r.1.pc + r.2.2) % 65536 }
           else r.1
    mem := r.2.1
    cycles := (s.cycles + opcode_cycles opcode) % 4294967296 }

/-- The while loop of cpu_execute: step while the uint32 cycle counter
is below the target.  Because the counter wraps modulo 2^32 the loop
need not terminate, so the model indexes it by a fuel bound on the
number of iterations: some s is returned exactly when the C loop stops
within fuel iterations (the result is then independent of any larger
fuel), and none means the loop is still running after fuel
iterations. -/
def cpu_run (inp target : Nat) : Nat → Machine → Option Machine
  | 0, _ => none
  | Nat.succ fuel, s =>
      if s.cycles < target then cpu_run inp target fuel (cpu_step inp s)
      else some s

/-- cpu_execute: target_cycles = cycles + num_cycles computed in
uint32_t (wrapping modulo 2^32), then the while loop, fuel-indexed as
in cpu_run. -/
def cpu_execute (inp num_cycles : Nat) (fuel : Nat) (s : Machine) :
    Option Machine :=
  cpu_run inp ((s.cycles + num_cycles) % 4294967296) fuel s

/-- cpu_set_pc. -/
def cpu_set_pc (address : Nat) (c : CPU) : CPU :=
  { c with pc := address % 65536 }

/-- Iterated cpu_step. -/
def cpu_steps (inp : Nat) : Nat → Machine → Machine
  | 0, s => s
  | Nat.succ k, s => cpu_steps inp k (cpu_step inp s)

/-- The register file as cpu_init leaves it before its final
cpu_reset() call: everything zero, sp = 0xFD, interrupts disabled. -/
def cpu_init_regs : CPU :=
  { pc := 0, a := 0, x := 0, y := 0, sp := 0xFD,
    c := false, z := false, i := true, d := false, b := false,
    v := false, n := false }

/-- The four-flag banking invariant of spec §3.2/§4.1: each flag equals
the decode of the low bits of the byte stored at $0001. -/
def bank_flags_decoded (m : Mem) : Prop :=
  m.kernal_rom_enabled = port_kernal (m.ram 1) ∧
  m.basic_rom_enabled = port_basic (m.ram 1) ∧
  m.io_enabled = port_io_bit (m.ram 1) ∧
  m.char_rom_enabled = port_char (m.ram 1)

/-- The banking invariant restricted to the kernal, basic and I/O
flags (dropping the char flag). -/
def bank_flags_decoded_kbi (m : Mem) : Prop :=
  m.kernal_rom_enabled = port_kernal (m.ram 1) ∧
  m.basic_rom_enabled = port_basic (m.ram 1) ∧
  m.io_enabled = port_io_bit (m.ram 1)

/-- E2E-2 program: JSR $C010 / NOP at $C000. -/
def prog_c1 : List Nat := [0x20, 0x10, 0xC0, 0xEA]

/-- E2E-2 memory: program at $C000 and an RTS at $C010. -/
def mem_c1 : Mem :=
  memory_write
    (memory_load memory_init 0xC000 (fun j => prog_c1.getD j 0) 4)
    0xC010 0x60

/-- E2E-2 machine: freshly initialised CPU with pc = $C000. -/
def m_c1 : Machine :=
  { cpu := { cpu_init_regs with pc := 0xC000 }, cycles := 0, mem := mem_c1 }

/-- E2E-1 program: LDA #$42 / CMP #$42 / BEQ +2 / two zero bytes /
NOP. -/
def prog_c3 : List Nat := [0xA9, 0x42, 0xC9, 0x42, 0xF0, 0x02, 0x00, 0x00, 0xEA]

/-- E2E-1 machine: program at $0800, pc = $0800. -/
def m_c3 : Machine :=
  { cpu := { cpu_init_regs with pc := 0x0800 }, cycles := 0,
    mem := memory_load memory_init 0x0800 (fun j => prog_c3.getD j 0) 9 }

/-- E2E-4 memory: JMP ($20FF) at $0800 with $20FF = $34, $2100 = $12,
$2000 = $CD. -/
def mem_c6 : Mem :=
  memory_write
    (memory_write
      (memory_write
        (memory_load memory_init 0x0800 (fun j => [0x6C, 0xFF, 0x20].getD j 0) 3)
        0x20FF 0x34)
      0x2100 0x12)
    0x2000 0xCD

/-- E2E-4 machine: pc = $0800. -/
def m_c6 : Machine :=
  { cpu := { cpu_init_regs with pc := 0x0800 }, cycles := 0, mem := mem_c6 }

/-- KERNAL-trap fixture: JSR $FFD2 at $4000. -/
def m_c9 : Machine :=
  { cpu := { cpu_init_regs with pc := 0x4000, a := 0x41 }, cycles := 0,
    mem := memory_load memory_init 0x4000 (fun j => [0x20, 0xD2, 0xFF].getD j 0) 3 }

/-- Normal JSR/RTS pair fixture: JSR $4100 at $4000, RTS at $4100. -/
def m_c9n : Machine :=
  { cpu := { cpu_init_regs with pc := 0x4000 }, cycles := 0,
    mem := memory_write
      (memory_load memory_init 0x4000 (fun j => [0x20, 0x00, 0x41].getD j 0) 3)
      0x4100 0x60 }

/-- E2E-3 second scenario: after init, write 0x07 then 0x30 to
$0001. -/
def c5_m3 : Mem := memory_write (memory_write memory_init 1 0x07) 1 0x30

/-- Cycle-counter overflow fixture: a machine whose uint32 counter sits
at 0xFFFFFFFF, one below the wrap. -/
def m_c8 : Machine :=
  { cpu := cpu_init_regs, cycles := 0xFFFFFFFF, mem := memory_init }

/-- Ordinary cpu_execute fixture: fresh counter on the initialised
memory. -/
def m_c8w : Machine :=
  { cpu := cpu_init_regs, cycles := 0, mem := memory_init }

/-- A store to a stack-page address (always $0100-$01FF) is a plain RAM
store: it misses both ROM windows, the I/O window and the processor
port. -/
theorem mem_write_stack (m : Mem) (addr v : Nat)
    (h1 : 0x0100 ≤ addr) (h2 : addr ≤ 0x01FF) :
    memory_write m addr v = { m with ram := upd m.ram addr (v % 256) } := by
  have ha : addr % 65536 = addr := Nat.mod_eq_of_lt (by omega)
  simp only [memory_write, ha]
  rw [if_neg (show ¬(m.basic_rom_enabled = true ∧ 0xA000 ≤ addr ∧ addr ≤ 0xBFFF)
        from fun hc => absurd hc.2.1 (by omega))]
  rw [if_neg (show ¬(m.kernal_rom_enabled = true ∧ 0xE000 ≤ addr ∧ addr ≤ 0xFFFF)
        from fun hc => absurd hc.2.1 (by omega))]
  rw [if_neg (show ¬(0xD000 ≤ addr ∧ addr ≤ 0xDFFF ∧ m.io_enabled = true)
        from fun hc => absurd hc.1 (by omega))]
  rw [if_neg (show ¬(0xD000 ≤ addr ∧ addr ≤ 0xDFFF ∧ m.io_enabled = false ∧
        m.char_rom_enabled = true) from fun hc => absurd hc.1 (by omega))]
  rw [if_neg (show ¬(addr = 1) by omega)]

/-- A read through a page whose dispatch entry is the RAM tag returns
the RAM byte (the enabled-I/O branch also reads the RAM shadow). -/
theorem memory_read_ram (m : Mem) (addr : Nat) (h : addr < 65536)
    (hmap : m.memory_read_map (addr / 256) = PageSrc.ramPage) :
    memory_read m addr = m.ram addr % 256 := by
  have ha : addr % 65536 = addr := Nat.mod_eq_of_lt h
  have hd : addr / 256 * 256 + addr % 256 = addr := by omega
  simp only [memory_read, ha]
  split
  · rfl
  · rw [hmap]
    show m.ram (addr / 256 * 256 + addr % 256) % 256 = m.ram addr % 256
    rw [hd]

/-- Closed form of cpu_push_word on an in-range stack pointer: the high
byte of the uint16 value lands at 0x0100 + sp, the low byte one slot
below (with uint8 wrap), and sp drops by two. -/
theorem cpu_push_word_eq (c : CPU) (m : Mem) (w : Nat) (hsp : c.sp < 256) :
    cpu_push_word c m w =
      ({ c with sp := (c.sp + 254) % 256 },
       { m with ram := upd (upd m.ram (0x0100 + c.sp) (w % 65536 / 256))
                           (0x0100 + (c.sp + 255) % 256) (w % 65536 % 256) }) := by
  have e1 : w % 65536 / 256 % 256 % 256 = w % 65536 / 256 := by omega
  have e2 : w % 65536 % 256 % 256 = w % 65536 % 256 := by omega
  have e3 : ((c.sp + 255) % 256 + 255) % 256 = (c.sp + 254) % 256 := by omega
  simp only [cpu_push_word, cpu_push_byte]
  rw [mem_write_stack m (0x0100 + c.sp) _ (by omega) (by omega)]
  rw [mem_write_stack _ (0x0100 + (c.sp + 255) % 256) _ (by omega) (by omega)]
  rw [e1, e2, e3]

/-- Closed form of cpu_pull_word on an in-range stack pointer whose
stack page dispatches to RAM: it pre-increments sp twice and recomposes
(high << 8) | low from the two RAM bytes. -/
theorem cpu_pull_word_eq (c : CPU) (m : Mem) (hsp : c.sp < 256)
    (hmap : m.memory_read_map 1 = PageSrc.ramPage) :
    cpu_pull_word c m =
      ({ c with sp := (c.sp + 2) % 256 },
       256 * (m.ram (0x0100 + (c.sp + 2) % 256) % 256)
         + m.ram (0x0100 + (c.sp + 1) % 256) % 256) := by
  have h1 : m.memory_read_map ((0x0100 + (c.sp + 1) % 256) / 256) = PageSrc.ramPage := by
    rw [show (0x0100 + (c.sp + 1) % 256) / 256 = 1 from by omega]
    exact hmap
  have h2 : m.memory_read_map ((0x0100 + ((c.sp + 1) % 256 + 1) % 256) / 256)
      = PageSrc.ramPage := by
    rw [show (0x0100 + ((c.sp + 1) % 256 + 1) % 256) / 256 = 1 from by omega]
    exact hmap
  have e3 : ((c.sp + 1) % 256 + 1) % 256 = (c.sp + 2) % 256 := by omega
  simp only [cpu_pull_word, cpu_pull_byte]
  rw [memory_read_ram m (0x0100 + (c.sp + 1) % 256) (by omega) h1]
  rw [memory_read_ram m (0x0100 + ((c.sp + 1) % 256 + 1) % 256) (by omega) h2]
  rw [e3]

/-- Claim C7: for every 16-bit value w and every in-range stack pointer
(wrap-around included), cpu_push_word stores the high byte first (at
0x0100 + sp) and the low byte below it, and an immediately following
cpu_pull_word returns exactly w and restores sp. -/
theorem c7_push_pull_roundtrip (c : CPU) (m : Mem) (w : Nat)
    (hsp : c.sp < 256) (hw : w < 65536)
    (hmap : m.memory_read_map 1 = PageSrc.ramPage) :
    (cpu_push_word c m w).2.ram (0x0100 + c.sp) = w / 256 ∧
    (cpu_push_word c m w).2.ram (0x0100 + (c.sp + 255) % 256) = w % 256 ∧
    (cpu_pull_word (cpu_push_word c m w).1 (cpu_push_word c m w).2).2 = w ∧
    (cpu_pull_word (cpu_push_word c m w).1 (cpu_push_word c m w).2).1.sp
      = c.sp := by
  have hww : w % 65536 = w := Nat.mod_eq_of_lt hw
  rw [cpu_push_word_eq c m w hsp]
  rw [cpu_pull_word_eq _ _ (by simp; omega) (by simpa using hmap)]
  simp only [upd, hww]
  have hne : 0x0100 + c.sp ≠ 0x0100 + (c.sp + 255) % 256 := by omega
  have hs2 : ((c.sp + 254) % 256 + 2) % 256 = c.sp := by omega
  have hs1 : ((c.sp + 254) % 256 + 1) % 256 = (c.sp + 255) % 256 := by omega
  rw [hs2, hs1]
  rw [if_neg hne, if_pos rfl, if_pos rfl]
  refine ⟨rfl, rfl, ?_, rfl⟩
  have hh : w / 256 % 256 = w / 256 := by omega
  have hl : w % 256 % 256 = w % 256 := by omega
  rw [if_neg hne, hh, hl]
  omega

/-- Claim C7 witness at w = 0xABCD with sp = 0, where both the push
decrement and the pull increment wrap modulo 256. -/
theorem c7_witness :
    (cpu_push_word { cpu_init_regs with sp := 0 } memory_init 0xABCD).2.ram 0x0100
        = 0xAB ∧
    (cpu_push_word { cpu_init_regs with sp := 0 } memory_init 0xABCD).2.ram 0x01FF
        = 0xCD ∧
    (cpu_pull_word (cpu_push_word { cpu_init_regs with sp := 0 } memory_init 0xABCD).1
        (cpu_push_word { cpu_init_regs with sp := 0 } memory_init 0xABCD).2).2 = 0xABCD ∧
    (cpu_pull_word (cpu_push_word { cpu_init_regs with sp := 0 } memory_init 0xABCD).1
        (cpu_push_word { cpu_init_regs with sp := 0 } memory_init 0xABCD).2).1.sp = 0 :=
  c7_push_pull_roundtrip { cpu_init_regs with sp := 0 } memory_init 0xABCD
    (by decide) (by decide) (by decide)

/-- Every entry of the opcode_cycles table lies between 2 (the default)
and 6 (JSR/RTS and the indexed-indirect opcodes). -/
theorem opcode_cycles_bounds (op : Nat) :
    2 ≤ opcode_cycles op ∧ opcode_cycles op ≤ 6 := by
  unfold opcode_cycles
  split <;> omega

/-- One step adds exactly the base cycle cost of the fetched opcode to
the uint32 counter, with wrap-around. -/
theorem cpu_step_cycles (inp : Nat) (s : Machine) :
    (cpu_step inp s).cycles
      = (s.cycles + opcode_cycles (memory_read s.mem s.cpu.pc))
          % 4294967296 := rfl

/-- When the target stays clear of the 2^32 wrap by the maximal
single-step cost, the while loop terminates within the stated fuel
bound, stopping at or past the target and overshooting it by at most 5
cycles. -/
theorem cpu_run_no_overflow (k : Nat) :
    ∀ inp target s fuel, target - s.cycles ≤ k → k < fuel →
      target + 5 < 4294967296 → s.cycles ≤ target + 5 →
      ∃ s1, cpu_run inp target fuel s = some s1 ∧
        target ≤ s1.cycles ∧ s1.cycles ≤ target + 5 := by
  induction k with
  | zero =>
      intro inp target s fuel hk hf ht hs
      obtain ⟨f, rfl⟩ : ∃ f, fuel = f + 1 := ⟨fuel - 1, by omega⟩
      simp only [cpu_run]
      split
      · next hlt => exact absurd hlt (by omega)
      · exact ⟨s, rfl, by omega, hs⟩
  | succ k ih =>
      intro inp target s fuel hk hf ht hs
      obtain ⟨f, rfl⟩ : ∃ f, fuel = f + 1 := ⟨fuel - 1, by omega⟩
      simp only [cpu_run]
      split
      · next hlt =>
          have h2 := opcode_cycles_bounds (memory_read s.mem s.cpu.pc)
          have h3 := cpu_step_cycles inp s
          have hcy : (cpu_step inp s).cycles
              = s.cycles + opcode_cycles (memory_read s.mem s.cpu.pc) := by
            rw [h3]
            exact Nat.mod_eq_of_lt (by omega)
          exact ih inp target (cpu_step inp s) f (by omega) (by omega) ht
            (by omega)
      · exact ⟨s, rfl, by omega, hs⟩

/-- Claim C8 counterexample: with the uint32 counter at 0xFFFFFFFF,
cpu_execute(2) computes the wrapped target (0xFFFFFFFF + 2) mod 2^32
= 1, so the while loop exits immediately (under any fuel) and returns
the machine unchanged: the counter has advanced by 0, not by at least
n = 2 as the claim demands for every n. -/
theorem c8_counterexample :
    cpu_execute 0 2 1 m_c8 = some m_c8 ∧
    cpu_execute 0 2 1000000 m_c8 = some m_c8 ∧
    ¬ (m_c8.cycles + 2 ≤ m_c8.cycles) :=
  ⟨rfl, rfl, by decide⟩

/-- Claim C8 amended: provided the 32-bit counter does not wrap during
the run (cycles + n + 5 < 2^32, the 5 being the maximal overshoot),
cpu_execute(n) terminates within n + 1 loop iterations, advances the
cycle counter by at least n, and overshoots by at most the base cost of
the final instruction (every table entry is between 2 and 6, so the
overshoot is at most 5); every opcode_cycles entry is at least 2, so
below the wrap each step strictly increases the counter. -/
theorem c8_cpu_execute_bounds (inp n : Nat) (s : Machine)
    (hov : s.cycles + n + 5 < 4294967296) :
    (∃ s1, cpu_execute inp n (n + 1) s = some s1 ∧
      s.cycles + n ≤ s1.cycles ∧ s1.cycles ≤ s.cycles + n + 5) ∧
    (∀ op, 2 ≤ opcode_cycles op ∧ opcode_cycles op ≤ 6) := by
  have ht : (s.cycles + n) % 4294967296 = s.cycles + n :=
    Nat.mod_eq_of_lt (by omega)
  refine ⟨?_, fun op => opcode_cycles_bounds op⟩
  unfold cpu_execute
  rw [ht]
  exact cpu_run_no_overflow n inp (s.cycles + n) s (n + 1) (by omega)
    (by omega) (by omega) (by omega)

/-- Claim C8 witness: a fresh counter on the initialised memory,
running 3 cycles with fuel 4. -/
theorem c8_witness :
    (∃ s1, cpu_execute 0 3 4 m_c8w = some s1 ∧
      m_c8w.cycles + 3 ≤ s1.cycles ∧ s1.cycles ≤ m_c8w.cycles + 3 + 5) ∧
    (∀ op, 2 ≤ opcode_cycles op ∧ opcode_cycles op ≤ 6) :=
  c8_cpu_execute_bounds 0 3 m_c8w (by decide)

/-- Claim C9: a JSR whose absolute operand lies in $FF00-$FFFF pushes
pc + 2 (one byte more than the pc + 1 of the normal JSR path), and the
KERNAL handler's RTS-equivalent pull ends the step with pc = p + 3 and
sp restored; a normal JSR/RTS pair instead resumes at p + 2, as the
concrete $4000 fixture shows (its pushed low byte is $01 = p + 1). -/
theorem c9_kernal_trap_jsr :
    (∀ inp s, memory_read s.mem s.cpu.pc = 0x20 →
      0xFF00 ≤ cpu_get_operand_address ADDR_ABSOLUTE s.cpu s.mem →
      s.cpu.sp < 256 →
      s.mem.memory_read_map 1 = PageSrc.ramPage →
      (cpu_step inp s).cpu.pc = (s.cpu.pc + 3) % 65536 ∧
      (cpu_step inp s).cpu.sp = s.cpu.sp ∧
      (cpu_step inp s).mem.ram (0x0100 + s.cpu.sp)
        = (s.cpu.pc + 2) % 65536 / 256 ∧
      (cpu_step inp s).mem.ram (0x0100 + (s.cpu.sp + 255) % 256)
        = (s.cpu.pc + 2) % 65536 % 256) ∧
    (cpu_steps 0 2 m_c9n).cpu.pc = 0x4002 ∧
    (cpu_step 0 m_c9n).mem.ram 0x01FC = 0x01 := by
  refine ⟨?_, by decide, by decide⟩
  intro inp s hop haddr hsp hmap
  simp only [cpu_step]
  rw [hop]
  simp only [show opcode_modes 0x20 = ADDR_ABSOLUTE from rfl,
    show opcode_sizes 0x20 = 3 from rfl]
  simp only [cpu_exec]
  rw [if_pos haddr]
  simp only [cpu_emulate_kernal]
  rw [cpu_push_word_eq s.cpu s.mem (s.cpu.pc + 2) hsp]
  rw [cpu_pull_word_eq _ _ (by simp; omega) (by simpa using hmap)]
  simp only [upd]
  have hs2 : ((s.cpu.sp + 254) % 256 + 2) % 256 = s.cpu.sp := by omega
  have hs1 : ((s.cpu.sp + 254) % 256 + 1) % 256 = (s.cpu.sp + 255) % 256 := by
    omega
  have hne2 : (0x0100 + (s.cpu.sp + 255) % 256) ≠ 0x0100 + s.cpu.sp := by omega
  have hne3 : s.cpu.sp ≠ (s.cpu.sp + 255) % 256 := by omega
  simp only [hs2, hs1]
  simp [hne2, hne3]
  omega

/-- Claim C9 witness: JSR $FFD2 at $4000 with sp = 0xFD pushes $40/$02
(the bytes of $4002 = p + 2) and ends the step at pc = $4003 with sp
restored. -/
theorem c9_witness :
    (cpu_step 0 m_c9).cpu.pc = 0x4003 ∧
    (cpu_step 0 m_c9).cpu.sp = 0xFD ∧
    (cpu_step 0 m_c9).mem.ram 0x01FD = 0x40 ∧
    (cpu_step 0 m_c9).mem.ram 0x01FC = 0x02 :=
  c9_kernal_trap_jsr.1 0 m_c9 (by decide) (by decide) (by decide) (by decide)

/-- Claim C4: while the BASIC (resp. KERNAL) ROM is banked in, a store
anywhere in its window leaves the whole memory state unchanged, and a
subsequent read through a current dispatch entry returns the ROM byte
at the offset from the window base. -/
theorem c4_rom_write_discard (m : Mem) (addr v : Nat) :
    (m.basic_rom_enabled = true → 0xA000 ≤ addr → addr ≤ 0xBFFF →
      memory_write m addr v = m ∧
      (m.memory_read_map (addr / 256) = PageSrc.basicPage →
        memory_read (memory_write m addr v) addr
          = m.basic_rom (addr - 0xA000) % 256)) ∧
    (m.kernal_rom_enabled = true → 0xE000 ≤ addr → addr ≤ 0xFFFF →
      memory_write m addr v = m ∧
      (m.memory_read_map (addr / 256) = PageSrc.kernalPage →
        memory_read (memory_write m addr v) addr
          = m.kernal_rom (addr - 0xE000) % 256)) := by
  constructor
  · intro hb h1 h2
    have ha : addr % 65536 = addr := Nat.mod_eq_of_lt (by omega)
    have hw : memory_write m addr v = m := by
      simp only [memory_write, ha]
      rw [if_pos ⟨hb, h1, h2⟩]
    refine ⟨hw, fun hmapb => ?_⟩
    rw [hw]
    simp only [memory_read, ha]
    rw [if_neg (show ¬(0xD0 ≤ addr / 256 ∧ addr / 256 ≤ 0xDF ∧
          m.io_enabled = true) from fun hc => absurd hc.1 (by omega))]
    rw [hmapb]
    show m.basic_rom ((addr / 256 - 0xA0) * 256 + addr % 256) % 256 = _
    rw [show (addr / 256 - 0xA0) * 256 + addr % 256 = addr - 0xA000 from by omega]
  · intro hk h1 h2
    have ha : addr % 65536 = addr := Nat.mod_eq_of_lt (by omega)
    have hw : memory_write m addr v = m := by
      simp only [memory_write, ha]
      rw [if_neg (show ¬(m.basic_rom_enabled = true ∧ 0xA000 ≤ addr ∧
            addr ≤ 0xBFFF) from fun hc => absurd hc.2.2 (by omega))]
      rw [if_pos ⟨hk, h1, h2⟩]
    refine ⟨hw, fun hmapk => ?_⟩
    rw [hw]
    simp only [memory_read, ha]
    rw [if_neg (show ¬(0xD0 ≤ addr / 256 ∧ addr / 256 ≤ 0xDF ∧
          m.io_enabled = true) from fun hc => absurd hc.2.1 (by omega))]
    rw [hmapk]
    show m.kernal_rom ((addr / 256 - 0xE0) * 256 + addr % 256) % 256 = _
    rw [show (addr / 256 - 0xE0) * 256 + addr % 256 = addr - 0xE000 from by omega]

/-- Claim C4 witness at both window bases after memory_init. -/
theorem c4_witness :
    (memory_write memory_init 0xA000 0x12 = memory_init ∧
     memory_read (memory_write memory_init 0xA000 0x12) 0xA000
       = memory_init.basic_rom (0xA000 - 0xA000) % 256) ∧
    (memory_write memory_init 0xFFFF 0x34 = memory_init ∧
     memory_read (memory_write memory_init 0xFFFF 0x34) 0xFFFF
       = memory_init.kernal_rom (0xFFFF - 0xE000) % 256) := by
  constructor
  · have h := (c4_rom_write_discard memory_init 0xA000 0x12).1
      (by decide) (by decide) (by decide)
    exact ⟨h.1, h.2 (by decide)⟩
  · have h := (c4_rom_write_discard memory_init 0xFFFF 0x34).2
      (by decide) (by decide) (by decide)
    exact ⟨h.1, h.2 (by decide)⟩

/-- Claim C5: after memory_init, writing 0x00 to $0001 makes a read of
$A000 return the RAM byte (zero by default) instead of the BASIC ROM's
0xEA; writing 0x07 back restores the 0xEA; and writing 0x07 then 0x30
disables every ROM, I/O and char, so all reads in $A000-$BFFF return
the underlying RAM. -/
theorem c5_banking_toggle :
    memory_read (memory_write memory_init 1 0) 0xA000 = 0 ∧
    (memory_write memory_init 1 0).ram 0xA000 = 0 ∧
    memory_read (memory_write (memory_write memory_init 1 0) 1 0x07) 0xA000
      = 0xEA ∧
    (∀ addr, 0xA000 ≤ addr → addr ≤ 0xBFFF →
      memory_read c5_m3 addr = c5_m3.ram addr ∧ c5_m3.ram addr = 0) := by
  refine ⟨by decide, by decide, by decide, ?_⟩
  intro addr h1 h2
  have hmap : c5_m3.memory_read_map (addr / 256) = PageSrc.ramPage := by
    rw [show c5_m3.memory_read_map = banked_map c5_m3 from rfl]
    simp [banked_map, show c5_m3.basic_rom_enabled = false from by decide,
      show c5_m3.kernal_rom_enabled = false from by decide,
      show c5_m3.char_rom_enabled = false from by decide]
  have hram : c5_m3.ram addr = 0 := by
    rw [show c5_m3.ram = upd (upd memory_init.ram 1 0x07) 1 0x30 from rfl]
    simp only [upd]
    rw [if_neg (show ¬ addr = 1 by omega), if_neg (show ¬ addr = 1 by omega)]
    show (if addr = 0 then 0x2F else if addr = 1 then 0x37 else 0) = 0
    rw [if_neg (show ¬ addr = 0 by omega), if_neg (show ¬ addr = 1 by omega)]
  refine ⟨?_, hram⟩
  rw [memory_read_ram c5_m3 addr (by omega) hmap, hram]

/-- Claim C5 witness in the middle of the BASIC window. -/
theorem c5_witness :
    memory_read c5_m3 0xB000 = c5_m3.ram 0xB000 ∧ c5_m3.ram 0xB000 = 0 :=
  c5_banking_toggle.2.2.2 0xB000 (by decide) (by decide)

/-- Any memory_write either leaves all four banking flags and the byte
at $0001 unchanged, or (exactly in the $0001 branch) leaves the state
satisfying the four-flag decode invariant. -/
theorem bank_flags_write_cases (m : Mem) (a v : Nat) :
    ((memory_write m a v).kernal_rom_enabled = m.kernal_rom_enabled ∧
     (memory_write m a v).basic_rom_enabled = m.basic_rom_enabled ∧
     (memory_write m a v).io_enabled = m.io_enabled ∧
     (memory_write m a v).char_rom_enabled = m.char_rom_enabled ∧
     (memory_write m a v).ram 1 = m.ram 1) ∨
    bank_flags_decoded (memory_write m a v) := by
  simp only [memory_write]
  split
  · left; exact ⟨rfl, rfl, rfl, rfl, rfl⟩
  · split
    · left; exact ⟨rfl, rfl, rfl, rfl, rfl⟩
    · split
      · next hc =>
          left
          refine ⟨rfl, rfl, rfl, rfl, ?_⟩
          simp only [upd]
          rw [if_neg (show ¬(1 = a % 65536) from fun he => by omega)]
      · split
        · left; exact ⟨rfl, rfl, rfl, rfl, rfl⟩
        · split
          · next ha1 =>
              right
              split
              · unfold bank_flags_decoded update_memory_maps
                refine ⟨?_, ?_, ?_, ?_⟩ <;> simp [upd]
              · unfold bank_flags_decoded
                refine ⟨?_, ?_, ?_, ?_⟩ <;> simp [upd]
          · next ha1 =>
              left
              refine ⟨rfl, rfl, rfl, rfl, ?_⟩
              simp only [upd]
              rw [if_neg (show ¬(1 = a % 65536) from fun he => ha1 he.symm)]

/-- A store to $0001 establishes the four-flag decode invariant: the
flags are recomputed from exactly the byte just stored. -/
theorem bank_flags_write_one (m : Mem) (v : Nat) :
    bank_flags_decoded (memory_write m 1 v) := by
  have h165 : (1 : Nat) % 65536 = 1 := rfl
  simp only [memory_write, h165]
  rw [if_neg (show ¬(m.basic_rom_enabled = true ∧ 0xA000 ≤ 1 ∧ (1 : Nat) ≤ 0xBFFF)
        from fun hc => absurd hc.2.1 (by omega))]
  rw [if_neg (show ¬(m.kernal_rom_enabled = true ∧ 0xE000 ≤ 1 ∧ (1 : Nat) ≤ 0xFFFF)
        from fun hc => absurd hc.2.1 (by omega))]
  rw [if_neg (show ¬(0xD000 ≤ 1 ∧ (1 : Nat) ≤ 0xDFFF ∧ m.io_enabled = true)
        from fun hc => absurd hc.1 (by omega))]
  rw [if_neg (show ¬(0xD000 ≤ 1 ∧ (1 : Nat) ≤ 0xDFFF ∧ m.io_enabled = false ∧
        m.char_rom_enabled = true) from fun hc => absurd hc.1 (by omega))]
  simp only [if_true]
  split
  · unfold bank_flags_decoded update_memory_maps
    refine ⟨?_, ?_, ?_, ?_⟩ <;> simp [upd]
  · unfold bank_flags_decoded
    refine ⟨?_, ?_, ?_, ?_⟩ <;> simp [upd]

/-- Claim C2 counterexample: immediately after memory_init the char
flag violates the decode of ram[$0001] = 0x37 (bit 2 is set, so the
decode says char off, but the flag is on). -/
theorem c2_counterexample :
    ¬ bank_flags_decoded memory_init ∧
    memory_init.ram 1 = 0x37 ∧
    memory_init.char_rom_enabled = true ∧
    port_char 0x37 = false := by
  unfold bank_flags_decoded
  decide

/-- Claim C2 amended: after memory_init the kernal/basic/io flags match
the decode of ram[$0001] (char does not); every memory_write to $0001
establishes the full four-flag decode invariant; and both the
three-flag and the four-flag invariants are preserved by every
memory_write (memory_read has no state effect; memory_load is excluded,
see C10). -/
theorem c2_amended_banking_invariant :
    bank_flags_decoded_kbi memory_init ∧
    (∀ m v, bank_flags_decoded (memory_write m 1 v)) ∧
    (∀ m a v, bank_flags_decoded_kbi m →
      bank_flags_decoded_kbi (memory_write m a v)) ∧
    (∀ m a v, bank_flags_decoded m → bank_flags_decoded (memory_write m a v)) := by
  refine ⟨by unfold bank_flags_decoded_kbi; decide,
    fun m v => bank_flags_write_one m v, ?_, ?_⟩
  · intro m a v h
    rcases bank_flags_write_cases m a v with hf | hd
    · unfold bank_flags_decoded_kbi at h ⊢
      rw [hf.1, hf.2.1, hf.2.2.1, hf.2.2.2.2]
      exact h
    · exact ⟨hd.1, hd.2.1, hd.2.2.1⟩
  · intro m a v h
    rcases bank_flags_write_cases m a v with hf | hd
    · unfold bank_flags_decoded at h ⊢
      rw [hf.1, hf.2.1, hf.2.2.1, hf.2.2.2.1, hf.2.2.2.2]
      exact h
    · exact hd

/-- Claim C2 witness: establishing the invariant with a write of 0x05
to $0001 and preserving it across an unrelated RAM write. -/
theorem c2_witness :
    bank_flags_decoded (memory_write (memory_write memory_init 1 0x05) 0x2000 0x33) :=
  c2_amended_banking_invariant.2.2.2 (memory_write memory_init 1 0x05) 0x2000 0x33
    (c2_amended_banking_invariant.2.1 memory_init 0x05)

/-- Claim C10: memory_load copies its bytes straight into the RAM
array for every destination (bytes aimed at an enabled ROM window land
in the RAM shadow instead of being discarded, and a range covering
$0001 overwrites the stored port byte), while all four banking flags
and the page dispatch table are left untouched. -/
theorem c10_load_bypasses_write_contract (m : Mem) (a : Nat)
    (d : Nat → Nat) (l : Nat) :
    (memory_load m a d l).basic_rom_enabled = m.basic_rom_enabled ∧
    (memory_load m a d l).kernal_rom_enabled = m.kernal_rom_enabled ∧
    (memory_load m a d l).io_enabled = m.io_enabled ∧
    (memory_load m a d l).char_rom_enabled = m.char_rom_enabled ∧
    (memory_load m a d l).memory_read_map = m.memory_read_map ∧
    (∀ j, a % 65536 ≤ j →
      j < a % 65536 + (if 65536 < a % 65536 + l % 65536
                       then 65536 - a % 65536 else l % 65536) →
      (memory_load m a d l).ram j = d (j - a % 65536) % 256) := by
  refine ⟨rfl, rfl, rfl, rfl, rfl, ?_⟩
  intro j h1 h2
  simp only [memory_load]
  rw [if_pos ⟨h1, h2⟩]

/-- Claim C10 witness: a one-byte load lands inside the enabled BASIC
ROM window ($A000), a two-byte load at $0000 overwrites the processor
port byte at $0001, and the BASIC flag is unchanged by it. -/
theorem c10_witness :
    (memory_load memory_init 0xA000 (fun _ => 0x12) 1).ram 0xA000 = 0x12 ∧
    (memory_load memory_init 0 (fun _ => 0) 2).ram 1 = 0 ∧
    (memory_load memory_init 0 (fun _ => 0) 2).basic_rom_enabled
      = memory_init.basic_rom_enabled := by
  refine ⟨?_, ?_, ?_⟩
  · exact (c10_load_bypasses_write_contract memory_init 0xA000
      (fun _ => 0x12) 1).2.2.2.2.2 0xA000 (by decide) (by decide)
  · exact (c10_load_bypasses_write_contract memory_init 0
      (fun _ => 0) 2).2.2.2.2.2 1 (by decide) (by decide)
  · exact (c10_load_bypasses_write_contract memory_init 0 (fun _ => 0) 2).1

/-- Claim C1 counterexample: the JSR step of E2E-2 pushes $C001
(pc + 2 - 1 with pc still at the JSR's own address), so the stack bytes
are $C0 and $01, not the claimed $C0 and $02. -/
theorem c1_counterexample :
    (cpu_step 0 m_c1).mem.ram 0x01FD = 0xC0 ∧
    (cpu_step 0 m_c1).mem.ram 0x01FC = 0x01 ∧
    (cpu_step 0 m_c1).mem.ram 0x01FC ≠ 0x02 := by decide

/-- Claim C1 amended: the JSR pushes $C001 (stack bytes $C0 then $01),
the RTS returns to $C002 where the stray operand byte $C0 is an
unimplemented opcode executed as a one-byte two-cycle no-op, so after
the third step pc = $C003, sp = 0xFD is restored, and the 0xEA NOP is
the next opcode. -/
theorem c1_amended_jsr_rts :
    (cpu_step 0 m_c1).cpu.pc = 0xC010 ∧
    (cpu_step 0 m_c1).cpu.sp = 0xFB ∧
    (cpu_step 0 m_c1).mem.ram 0x01FD = 0xC0 ∧
    (cpu_step 0 m_c1).mem.ram 0x01FC = 0x01 ∧
    (cpu_steps 0 2 m_c1).cpu.pc = 0xC002 ∧
    (cpu_steps 0 2 m_c1).cpu.sp = 0xFD ∧
    (cpu_steps 0 3 m_c1).cpu.pc = 0xC003 ∧
    (cpu_steps 0 3 m_c1).cpu.sp = 0xFD ∧
    memory_read (cpu_steps 0 3 m_c1).mem 0xC003 = 0xEA := by decide

/-- Claim C3 counterexample: the fourth step of E2E-1 executes the
unimplemented 0xEA byte as a one-byte default no-op, leaving
pc = $0809, not the claimed $0808. -/
theorem c3_counterexample :
    (cpu_steps 0 4 m_c3).cpu.pc = 0x0809 ∧
    (cpu_steps 0 4 m_c3).cpu.pc ≠ 0x0808 := by decide

/-- Claim C3 amended: after four steps a = 0x42, Z = 1, C = 1, N = 0
and pc = $0809; the branch lands on the 0xEA at $0808 after the third
step, and the fourth step advances over it by one byte. -/
theorem c3_amended_e2e1 :
    (cpu_steps 0 4 m_c3).cpu.a = 0x42 ∧
    (cpu_steps 0 4 m_c3).cpu.z = true ∧
    (cpu_steps 0 4 m_c3).cpu.c = true ∧
    (cpu_steps 0 4 m_c3).cpu.n = false ∧
    (cpu_steps 0 4 m_c3).cpu.pc = 0x0809 ∧
    (cpu_steps 0 3 m_c3).cpu.pc = 0x0808 ∧
    memory_read (cpu_steps 0 3 m_c3).mem 0x0808 = 0xEA := by decide

/-- Claim C6: JMP indirect reproduces the 6502 page-boundary bug; with
the E2E-4 pokes the step ends at pc = $CD34 (high byte fetched from
$2000, not $2100, which would have produced $1234), and in general a
pointer with low byte $FF takes its target high byte from
pointer & 0xFF00. -/
theorem c6_indirect_jmp_page_bug :
    ((cpu_step 0 m_c6).cpu.pc = 0xCD34 ∧ (cpu_step 0 m_c6).cpu.pc ≠ 0x1234) ∧
    (∀ c m, (memory_read m (c.pc + 1) + 256 * memory_read m (c.pc + 2)) % 256
        = 0xFF →
      cpu_get_operand_address ADDR_INDIRECT c m =
        memory_read m (memory_read m (c.pc + 1) + 256 * memory_read m (c.pc + 2))
          + 256 * memory_read m
              ((memory_read m (c.pc + 1) + 256 * memory_read m (c.pc + 2))
                / 256 * 256)) := by
  refine ⟨by decide, ?_⟩
  intro c m h
  simp only [cpu_get_operand_address]
  rw [if_pos h]

/-- Claim C6 witness: the page-boundary rule applied to the E2E-4
machine, whose pointer $20FF has low byte $FF. -/
theorem c6_witness :
    cpu_get_operand_address ADDR_INDIRECT m_c6.cpu m_c6.mem =
      memory_read m_c6.mem (memory_read m_c6.mem (m_c6.cpu.pc + 1)
          + 256 * memory_read m_c6.mem (m_c6.cpu.pc + 2))
        + 256 * memory_read m_c6.mem ((memory_read m_c6.mem (m_c6.cpu.pc + 1)
          + 256 * memory_read m_c6.mem (m_c6.cpu.pc + 2)) / 256 * 256) :=
  c6_indirect_jmp_page_bug.2 m_c6.cpu m_c6.mem (by decide)
